import Mathlib

/-
Shallow embedding of the servicesim competition core
(src/servicesim_competition/src/Checkpoint.cc, CompetitionPlugin.cc,
FollowActorPlugin.cc).

Conventions of the embedding:
* gazebo::common::Time is modelled as a rational number of seconds;
  gazebo::common::Time::Zero is the rational 0, which the code also uses
  as the "unset" sentinel for startTime and endTime.
* Doubles are modelled as rationals.  ignition::math::Vector3d::Length()
  is a square root, which is irrational over the rationals, so
  - pure comparisons of the form Length() > c are encoded on squared
    data: over the reals, sqrt a > c holds iff c < 0 or c * c < a
    (definition lengthGT below);
  - where the code both compares against Length() and divides by it
    (FollowActorPlugin::OnUpdate), the length is passed to the embedded
    function as an extra argument len, and every theorem about it pins
    len down with the hypotheses len * len = normSq dir and 0 <= len.
* The uint8_t counter CompetitionPluginPrivate::current is a Nat whose
  increment is taken modulo 256, exactly as the machine arithmetic does.
* Out-of-bounds std::vector indexing (undefined behaviour) is modelled
  by returning none.
* The transcendental orientation Quaterniond(IGN_PI_2, 0,
  Normalize(atan2 dy dx + IGN_PI_2)) written by the follow plugin is kept
  symbolic as the pair of atan2 arguments (structure YawHeading): the
  code determines the orientation exactly by this pair.
-/

/-- ignition::math::Vector3d. -/
structure Vec3 where
  x : ℚ
  y : ℚ
  z : ℚ
deriving DecidableEq

/-- Componentwise difference, a - b. -/
def Vec3.sub (a b : Vec3) : Vec3 := ⟨a.x - b.x, a.y - b.y, a.z - b.z⟩

/-- Componentwise sum. -/
def Vec3.add (a b : Vec3) : Vec3 := ⟨a.x + b.x, a.y + b.y, a.z + b.z⟩

/-- Scaling by a rational. -/
def Vec3.scale (v : Vec3) (c : ℚ) : Vec3 := ⟨v.x * c, v.y * c, v.z * c⟩

/-- Squared euclidean norm; Length() is its square root. -/
def Vec3.normSq (v : Vec3) : ℚ := v.x * v.x + v.y * v.y + v.z * v.z

/-- Overwriting the Z component, as in posDiff.Z(0) and actorPose.Pos().Z(zPos). -/
def Vec3.withZ (v : Vec3) (c : ℚ) : Vec3 := ⟨v.x, v.y, c⟩

/-- Exact encoding of the real comparison v.Length() > c on squared data:
sqrt (normSq v) > c holds iff c < 0 or c * c < normSq v. -/
def lengthGT (v : Vec3) (c : ℚ) : Bool :=
  decide (c < 0) || decide (c * c < v.normSq)

/-- servicesim::Checkpoint: scoring fields (Checkpoint.hh).  weight comes
from the SDF configuration; startTime and endTime start at Time::Zero = 0. -/
structure Checkpoint where
  weight : ℚ := 0
  startTime : ℚ := 0
  endTime : ℚ := 0
deriving DecidableEq

/-- Checkpoint::Score (Checkpoint.cc): end is endTime, or the current sim
time when endTime is still the Time::Zero sentinel; the score is the
elapsed seconds times the weight. -/
def Checkpoint.Score (c : Checkpoint) (now : ℚ) : ℚ :=
  ((if c.endTime = 0 then now else c.endTime) - c.startTime) * c.weight

/-- Checkpoint::Start (Checkpoint.cc): records the current sim time as
startTime (the log message is informational only). -/
def Checkpoint.Start (c : Checkpoint) (now : ℚ) : Checkpoint :=
  { c with startTime := now }

/-- In-place update of the element at index i (vector element mutation). -/
def modifyAt (l : List Checkpoint) (i : Nat) (f : Checkpoint → Checkpoint) :
    List Checkpoint :=
  match l, i with
  | [], _ => []
  | c :: t, 0 => f c :: t
  | c :: t, j + 1 => c :: modifyAt t j f

/-- servicesim_competition::Score message: per-checkpoint scores and total. -/
structure ScoreMsg where
  checkpoints : List ℚ
  score : ℚ
deriving DecidableEq

/-- The score message built by CompetitionPlugin::OnUpdate: one Score()
per checkpoint, and their sum as the total. -/
def publishScores (cps : List Checkpoint) (now : ℚ) : ScoreMsg :=
  { checkpoints := cps.map (fun c => Checkpoint.Score c now),
    score := (cps.map (fun c => Checkpoint.Score c now)).sum }

/-- CompetitionPluginPrivate: the plugin state relevant to the claims.
current is the uint8_t checkpoint counter (0 = no checkpoint running);
lastScorePubTime is the static rate-limit timestamp in OnUpdate. -/
structure CompState where
  checkpoints : List Checkpoint
  current : Nat
  pickUpLocation : String
  scoreFreq : ℚ := 50
  lastScorePubTime : ℚ := 0
deriving DecidableEq

/-- CompetitionPlugin::OnNewTaskRosService.  Returns the handler result,
the pick_up_location response field (empty when untouched), and the new
state.  none models the unguarded checkpoints[0] access on an empty
vector (undefined behaviour): the code has no empty-list check. -/
def CompetitionPlugin.OnNewTaskRosService (s : CompState) (now : ℚ) :
    Option (Bool × String × CompState) :=
  if s.current ≠ 0 then some (false, "", s)
  else
    match s.checkpoints with
    | [] => none
    | c :: rest =>
        some (true, s.pickUpLocation,
          { s with current := 1, checkpoints := Checkpoint.Start c now :: rest })

/-- The body of the "if Check()" block of CompetitionPlugin::OnUpdate:
current++ with uint8_t wrap; if current now exceeds the checkpoint count,
reset it to 0 (competition complete); otherwise call Start() on the newly
active checkpoint.  none models the out-of-bounds
checkpoints[current - 1] access that a wrap to current == 0 causes. -/
def checkStep (s : CompState) (now : ℚ) : Option CompState :=
  if s.checkpoints.length < (s.current + 1) % 256 then some { s with current := 0 }
  else if (s.current + 1) % 256 = 0 then none
  else
    some { s with
            current := (s.current + 1) % 256,
            checkpoints := modifyAt s.checkpoints ((s.current + 1) % 256 - 1)
              (fun c => Checkpoint.Start c now) }

/-- The score-publication tail of CompetitionPlugin::OnUpdate: rate
limited to one message per 1/scoreFreq of sim time. -/
def publishStep (s1 : CompState) (now : ℚ) : CompState × Option ScoreMsg :=
  if now - s1.lastScorePubTime < 1 / s1.scoreFreq then (s1, none)
  else ({ s1 with lastScorePubTime := now }, some (publishScores s1.checkpoints now))

/-- CompetitionPlugin::OnUpdate.  checkResult is the boolean returned by
the active checkpoint's Check() call this tick (the checkpoint's own
transport state machine is modelled separately, see ContainCheckpoint).
Returns none on out-of-bounds indexing: the unguarded
checkpoints[current - 1] access when current - 1 is past the end, and the
wrap case inside checkStep.  The second component is the Score message
published this tick, if any. -/
def CompetitionPlugin.OnUpdate (s : CompState) (checkResult : Bool) (now : ℚ) :
    Option (CompState × Option ScoreMsg) :=
  if s.current = 0 then some (s, none)
  else if s.checkpoints.length ≤ s.current - 1 then none
  else Option.map (fun s1 => publishStep s1 now)
        (if checkResult then checkStep s now else some s)

/-- One tick of CompetitionPlugin::OnUpdate with a successful Check(),
keeping only the state. -/
def advanceSucc (s : CompState) (now : ℚ) : Option CompState :=
  (CompetitionPlugin.OnUpdate s true now).map Prod.fst

/-- Iterated successful ticks, one per listed sim time. -/
def iterAdvance : List ℚ → CompState → Option CompState
  | [], s => some s
  | now :: rest, s =>
    match advanceSucc s now with
    | none => none
    | some t => iterAdvance rest t

/-- servicesim::ContainCheckpoint: the transport-facing state of
Checkpoint.cc.  The counters record the observable side effects:
subscribeCount counts ignNode.Subscribe calls, enableRequestCount the
enable requests (data = true), disableRequestCount the disable requests
(data = false). -/
structure ContainCheckpoint where
  ns : String := ""
  enabled : Bool := false
  containDone : Bool := false
  subscribed : Bool := false
  subscribeCount : Nat := 0
  enableRequestCount : Nat := 0
  disableRequestCount : Nat := 0
deriving DecidableEq

/-- ContainCheckpoint::Check (Checkpoint.cc).  First branch: when neither
enabled nor done, subscribe to ns/contain and request enable.  Second
branch: when enabled and done, unsubscribe from all topics and request
disable.  Both branch guards read the fields as they were at entry (the
first branch modifies neither enabled nor containDone).  Returns
containDone. -/
def ContainCheckpoint.Check (s : ContainCheckpoint) : Bool × ContainCheckpoint :=
  let s1 := if !s.enabled && !s.containDone then
      { s with subscribed := true,
               subscribeCount := s.subscribeCount + 1,
               enableRequestCount := s.enableRequestCount + 1 }
    else s
  let s2 := if s.enabled && s.containDone then
      { s1 with subscribed := false,
                disableRequestCount := s1.disableRequestCount + 1 }
    else s1
  (s2.containDone, s2)

/-- ContainCheckpoint::OnContain: containDone is assigned the message
payload (not latched: a false message overwrites a previous true). -/
def ContainCheckpoint.OnContain (s : ContainCheckpoint) (b : Bool) : ContainCheckpoint :=
  { s with containDone := b }

/-- The enable/disable request callback: on a successful result it
toggles the enabled flag. -/
def ContainCheckpoint.EnableCallback (s : ContainCheckpoint) (result : Bool) :
    ContainCheckpoint :=
  if result then { s with enabled := !s.enabled } else s

/-- Events interleaved with the checkpoint, per the single-writer
discipline: a synchronous Check() tick, a contain message delivery
(only effective while the subscription is open), or a request
acknowledgement (runs EnableCallback). -/
inductive ContainEvent
  | tick
  | containMsg (b : Bool)
  | reqAck (result : Bool)
deriving DecidableEq

/-- Apply one event to the checkpoint state. -/
def stepEvent (s : ContainCheckpoint) : ContainEvent → ContainCheckpoint
  | ContainEvent.tick => (ContainCheckpoint.Check s).2
  | ContainEvent.containMsg b =>
      if s.subscribed then ContainCheckpoint.OnContain s b else s
  | ContainEvent.reqAck r => ContainCheckpoint.EnableCallback s r

/-- Run a sequence of events. -/
def runEvents (s : ContainCheckpoint) : List ContainEvent → ContainCheckpoint
  | [] => s
  | e :: rest => runEvents (stepEvent s e) rest

/-- The yaw written by FollowActorPlugin::OnUpdate, kept symbolic: the
stored pair (dy, dx) stands for the orientation
Quaterniond(IGN_PI_2, 0, Normalize(atan2 dy dx + IGN_PI_2)). -/
structure YawHeading where
  dy : ℚ
  dx : ℚ
deriving DecidableEq

/-- A world model: name, position, axis-aligned bounding box. -/
structure WModel where
  name : String
  pos : Vec3
  bbMin : Vec3 := ⟨0, 0, 0⟩
  bbMax : Vec3 := ⟨0, 0, 0⟩
deriving DecidableEq

/-- The world as seen by the follow plugin: the list of models. -/
structure World where
  models : List WModel
deriving DecidableEq

/-- physics::World::ModelByName. -/
def World.modelByName (w : World) (n : String) : Option WModel :=
  w.models.find? (fun m => m.name == n)

/-- ignition::math::AxisAlignedBox::Contains: inclusive on all axes. -/
def boxContains (lo hi p : Vec3) : Bool :=
  decide (lo.x ≤ p.x) && decide (p.x ≤ hi.x) &&
  decide (lo.y ≤ p.y) && decide (p.y ≤ hi.y) &&
  decide (lo.z ≤ p.z) && decide (p.z ≤ hi.z)

/-- FollowActorPluginPrivate: defaults as in FollowActorPlugin.cc. -/
structure FollowState where
  actorName : String
  actorPos : Vec3
  actorRot : Option YawHeading := none
  scriptTime : ℚ := 0
  velocity : ℚ := 4 / 5
  minDistance : ℚ := 6 / 5
  maxDistance : ℚ := 4
  pickUpRadius : ℚ := 2
  obstacleMargin : ℚ := 1 / 2
  animationFactor : ℚ := 51 / 10
  lastUpdate : ℚ := 0
  target : Option String := none
  ignoreModels : List String := []
deriving DecidableEq

/-- FollowActorPlugin::ObstacleOnTheWay: some world model not on the
ignore list whose bounding box, inflated by the margin on every axis and
by a further 5 vertically, contains the actor position. -/
def FollowActorPlugin.ObstacleOnTheWay (actorPos : Vec3) (ignoreModels : List String)
    (margin : ℚ) (w : World) : Bool :=
  w.models.any fun m =>
    !(ignoreModels.contains m.name) &&
    boxContains
      ⟨m.bbMin.x - margin, m.bbMin.y - margin, m.bbMin.z - margin - 5⟩
      ⟨m.bbMax.x + margin, m.bbMax.y + margin, m.bbMax.z + margin + 5⟩
      actorPos

/-- FollowActorPlugin::OnUpdate.  targetPos is the pose read through the
target ModelPtr this tick (unused when no target is set).  len stands
for dir.Length() and lenMove for the travelled distance
(newPos - oldPos).Length(); theorems constrain them to the exact square
roots.  dt is simTime - lastUpdate and lastUpdate is always refreshed,
as in the code. -/
def FollowActorPlugin.OnUpdate (s : FollowState) (w : World) (targetPos : Vec3)
    (simTime len lenMove : ℚ) : FollowState :=
  let dt := simTime - s.lastUpdate
  let s1 : FollowState := { s with lastUpdate := simTime }
  match s1.target with
  | none => s1
  | some _ =>
    if FollowActorPlugin.ObstacleOnTheWay s1.actorPos s1.ignoreModels s1.obstacleMargin w
    then s1
    else
      let zPos := s1.actorPos.z
      let dir := targetPos.sub s1.actorPos
      if len ≤ s1.minDistance then s1
      else if s1.maxDistance < len then { s1 with target := none }
      else
        let dirN := dir.scale (1 / len)
        let newPos := Vec3.withZ (s1.actorPos.add (dirN.scale (s1.velocity * dt))) zPos
        { s1 with actorPos := newPos,
                  actorRot := some { dy := dir.y, dx := dir.x },
                  scriptTime := s1.scriptTime + lenMove * s1.animationFactor }

/-- One follow tick input: the world, the target pose, the sim time, and
the two length arguments. -/
structure FollowTickInput where
  w : World
  targetPos : Vec3
  simTime : ℚ
  len : ℚ
  lenMove : ℚ

/-- Iterated follow ticks. -/
def followRun (s : FollowState) : List FollowTickInput → FollowState
  | [] => s
  | i :: rest =>
      followRun (FollowActorPlugin.OnUpdate s i.w i.targetPos i.simTime i.len i.lenMove) rest

/-- The PickUpGuest response. -/
structure PickUpResponse where
  success : Bool
deriving DecidableEq

/-- FollowActorPlugin::OnPickUpRosRequest.  Returns the handler result,
the response (whose success field is set on every branch, including the
early returns), and the new state.  The radius test zeroes the Z
component of the position difference before comparing its length against
pickUpRadius. -/
def FollowActorPlugin.OnPickUpRosRequest (s : FollowState) (w : World)
    (guestName robotName : String) : Bool × PickUpResponse × FollowState :=
  if guestName ≠ s.actorName then (false, ⟨false⟩, s)
  else
    match w.modelByName robotName with
    | none => (false, ⟨false⟩, s)
    | some m =>
        if lengthGT (Vec3.withZ (s.actorPos.sub m.pos) 0) s.pickUpRadius then
          (false, ⟨false⟩, s)
        else (true, ⟨true⟩, { s with target := some robotName })

/-- A one-checkpoint competition that has not started yet. -/
def c1ex : CompState := { checkpoints := [⟨1, 0, 0⟩], current := 0, pickUpLocation := "front" }

/-- A 255-checkpoint competition right after StartTask (current = 1). -/
def cp255 : CompState :=
  { checkpoints := List.replicate 255 (⟨0, 0, 0⟩ : Checkpoint), current := 1,
    pickUpLocation := "front" }

/-- A competition with an empty checkpoint list and no task running. -/
def compEmpty : CompState := { checkpoints := [], current := 0, pickUpLocation := "front" }

/-- A one-checkpoint competition ready for a new task. -/
def c2s : CompState := { checkpoints := [⟨1, 0, 0⟩], current := 0, pickUpLocation := "front_desk" }

/-- A one-checkpoint competition with no task running and a stale
publication timestamp. -/
def c10s : CompState := { checkpoints := [⟨1, 5, 0⟩], current := 0, pickUpLocation := "front" }

/-- The fresh ContainCheckpoint state: not enabled, not done, nothing
subscribed, no requests sent. -/
def containInit : ContainCheckpoint := {}

/-- The state reached on the normal path: first Check() subscribes and
requests enable, the enable ack arrives, then the contains signal
latches true. -/
def c5w : ContainCheckpoint :=
  runEvents containInit
    [ContainEvent.tick, ContainEvent.reqAck true, ContainEvent.containMsg true]

/-- A world with no models at all. -/
def emptyWorld : World := ⟨[]⟩

/-- An actor with a follow target set, at (0,0,1), with the default
configuration. -/
def c7free : FollowState :=
  { actorName := "guest", actorPos := ⟨0, 0, 1⟩, target := some "robot",
    ignoreModels := ["guest"] }

/-- A world with a wall whose inflated bounding box contains (0,0,1). -/
def wallWorld : World :=
  ⟨[{ name := "wall", pos := ⟨0, 0, 0⟩, bbMin := ⟨-1, -1, -1⟩, bbMax := ⟨1, 1, 1⟩ }]⟩

/-- An actor with a follow target set, at (0,0,1), used when an obstacle
is present. -/
def c7s : FollowState :=
  { actorName := "guest", actorPos := ⟨0, 0, 1⟩, target := some "robot",
    ignoreModels := ["guest"] }

/-- The actor of the in-range concrete scenario, at (0,0,1). -/
def c8s : FollowState :=
  { actorName := "guest", actorPos := ⟨0, 0, 1⟩, target := some "robot",
    ignoreModels := ["guest"] }

/-- The actor used for the planar-versus-3D comparison, at the origin. -/
def c9s : FollowState :=
  { actorName := "guest", actorPos := ⟨0, 0, 0⟩, target := some "robot",
    ignoreModels := ["guest"] }

/-- A world holding exactly the robot model, at the given position. -/
def robotWorldAt (p : Vec3) : World := ⟨[{ name := "robot", pos := p }]⟩

/-- The pickup actor used by the C6 witness. -/
def c6s : FollowState := { actorName := "guest", actorPos := ⟨0, 0, 1⟩ }

/-
Lemmas about the competition controller.
-/

theorem modifyAt_length (l : List Checkpoint) (i : Nat) (f : Checkpoint → Checkpoint) :
    (modifyAt l i f).length = l.length := by
  induction l generalizing i with
  | nil => rfl
  | cons c t ih =>
    cases i with
    | zero => rfl
    | succ j => simpa [modifyAt] using ih j

theorem publishStep_fst (s1 : CompState) (now : ℚ) :
    (publishStep s1 now).1.current = s1.current ∧
    (publishStep s1 now).1.checkpoints = s1.checkpoints ∧
    (publishStep s1 now).1.pickUpLocation = s1.pickUpLocation := by
  unfold publishStep
  split <;> exact ⟨rfl, rfl, rfl⟩

theorem advance_increment (s : CompState) (now : ℚ)
    (h1 : 1 ≤ s.current) (h2 : s.current < s.checkpoints.length) (h3 : s.current ≤ 254) :
    ∃ t, advanceSucc s now = some t ∧ t.current = s.current + 1 ∧
      t.checkpoints = modifyAt s.checkpoints s.current (fun c => Checkpoint.Start c now) ∧
      t.pickUpLocation = s.pickUpLocation := by
  have hmod : (s.current + 1) % 256 = s.current + 1 := Nat.mod_eq_of_lt (by omega)
  have key : advanceSucc s now =
      some (publishStep { s with
        current := s.current + 1,
        checkpoints := modifyAt s.checkpoints (s.current + 1 - 1)
          (fun c => Checkpoint.Start c now) } now).1 := by
    unfold advanceSucc CompetitionPlugin.OnUpdate checkStep
    rw [hmod, if_neg (by omega : ¬ s.current = 0),
      if_neg (by omega : ¬ s.checkpoints.length ≤ s.current - 1), if_pos rfl,
      if_neg (by omega : ¬ s.checkpoints.length < s.current + 1),
      if_neg (by omega : ¬ s.current + 1 = 0)]
    rfl
  obtain ⟨hc, hk, hp⟩ := publishStep_fst { s with
      current := s.current + 1,
      checkpoints := modifyAt s.checkpoints (s.current + 1 - 1)
        (fun c => Checkpoint.Start c now) } now
  refine ⟨_, key, ?_, ?_, ?_⟩
  · rw [hc]
  · rw [hk]; simp
  · rw [hp]

theorem advance_reset (s : CompState) (now : ℚ)
    (h1 : 1 ≤ s.current) (h2 : s.current = s.checkpoints.length) (h3 : s.current ≤ 254) :
    ∃ t, advanceSucc s now = some t ∧ t.current = 0 ∧ t.checkpoints = s.checkpoints ∧
      t.pickUpLocation = s.pickUpLocation := by
  have hmod : (s.current + 1) % 256 = s.current + 1 := Nat.mod_eq_of_lt (by omega)
  have key : advanceSucc s now = some (publishStep { s with current := 0 } now).1 := by
    unfold advanceSucc CompetitionPlugin.OnUpdate checkStep
    rw [hmod, if_neg (by omega : ¬ s.current = 0),
      if_neg (by omega : ¬ s.checkpoints.length ≤ s.current - 1), if_pos rfl,
      if_pos (by omega : s.checkpoints.length < s.current + 1)]
    rfl
  obtain ⟨hc, hk, hp⟩ := publishStep_fst { s with current := 0 } now
  exact ⟨_, key, hc, hk, hp⟩

theorem advance_wrap (s : CompState) (now : ℚ)
    (h1 : s.current = 255) (h2 : s.checkpoints.length = 255) :
    advanceSucc s now = none := by
  have hmod : (s.current + 1) % 256 = 0 := by rw [h1]
  unfold advanceSucc CompetitionPlugin.OnUpdate checkStep
  rw [hmod, if_neg (by omega : ¬ s.current = 0),
    if_neg (by omega : ¬ s.checkpoints.length ≤ s.current - 1), if_pos rfl,
    if_neg (by omega : ¬ s.checkpoints.length < 0), if_pos rfl]
  rfl

theorem iterAdvance_completes (times : List ℚ) :
    ∀ s : CompState, s.checkpoints.length ≤ 254 → 1 ≤ s.current →
      s.current ≤ s.checkpoints.length →
      s.current + times.length = s.checkpoints.length + 1 →
      ∃ u, iterAdvance times s = some u ∧ u.current = 0 ∧
        u.checkpoints.length = s.checkpoints.length ∧
        u.pickUpLocation = s.pickUpLocation := by
  induction times with
  | nil =>
    intro s h1 h2 h3 h4
    simp only [List.length_nil] at h4
    omega
  | cons now rest ih =>
    intro s h1 h2 h3 h4
    simp only [List.length_cons] at h4
    by_cases hc : s.current = s.checkpoints.length
    · obtain ⟨t, ht, ht0, htk, htp⟩ := advance_reset s now h2 hc (by omega)
      have hrest : rest = [] := List.eq_nil_of_length_eq_zero (by omega)
      subst hrest
      refine ⟨t, ?_, ht0, by rw [htk], htp⟩
      simp [iterAdvance, ht]
    · obtain ⟨t, ht, htc, htk, htp⟩ := advance_increment s now h2 (by omega) (by omega)
      have hlen : t.checkpoints.length = s.checkpoints.length := by
        rw [htk, modifyAt_length]
      obtain ⟨u, hu, hu0, huk, hup⟩ := ih t (by omega) (by omega) (by omega) (by omega)
      refine ⟨u, ?_, hu0, by omega, by rw [hup, htp]⟩
      simp [iterAdvance, ht, hu]

theorem iterAdvance_wraps (times : List ℚ) :
    ∀ s : CompState, s.checkpoints.length = 255 → 1 ≤ s.current → s.current ≤ 255 →
      s.current + times.length = 256 → iterAdvance times s = none := by
  induction times with
  | nil =>
    intro s h1 h2 h3 h4
    simp only [List.length_nil] at h4
    omega
  | cons now rest ih =>
    intro s h1 h2 h3 h4
    simp only [List.length_cons] at h4
    by_cases hc : s.current = 255
    · have hw := advance_wrap s now hc h1
      simp [iterAdvance, hw]
    · obtain ⟨t, ht, htc, htk, htp⟩ := advance_increment s now h2 (by omega) (by omega)
      have hlen : t.checkpoints.length = s.checkpoints.length := by
        rw [htk, modifyAt_length]
      have htail := ih t (by omega) (by omega) (by omega) (by omega)
      simp [iterAdvance, ht, htail]

theorem onUpdate_idle (s : CompState) (r : Bool) (now : ℚ) (h : s.current = 0) :
    CompetitionPlugin.OnUpdate s r now = some (s, none) := by
  unfold CompetitionPlugin.OnUpdate
  rw [if_pos h]

theorem newTask_busy (s : CompState) (now : ℚ) (h : s.current ≠ 0) :
    CompetitionPlugin.OnNewTaskRosService s now = some (false, "", s) := by
  unfold CompetitionPlugin.OnNewTaskRosService
  rw [if_pos h]

theorem newTask_success (s : CompState) (now : ℚ) (c : Checkpoint) (rest : List Checkpoint)
    (h0 : s.current = 0) (hl : s.checkpoints = c :: rest) :
    CompetitionPlugin.OnNewTaskRosService s now =
      some (true, s.pickUpLocation,
        { s with current := 1, checkpoints := Checkpoint.Start c now :: rest }) := by
  unfold CompetitionPlugin.OnNewTaskRosService
  rw [if_neg (by simp [h0]), hl]

/-
Example states used by witnesses and counterexamples.
-/

/-- C1 counterexample: the claim quantifies over every checkpoint
sequence with N stages, but current is a uint8_t.  With N = 255 stages,
on the 255th successful Check() the increment wraps current to 0, the
completion test 0 > 255 fails, and the code calls Start() on
checkpoints[current - 1] with current == 0, an out-of-bounds access
(modelled none): the index never returns to 0. -/
theorem c1_counterexample :
    iterAdvance (List.replicate 255 0) cp255 = none ∧
    ¬ ∃ u, iterAdvance (List.replicate 255 0) cp255 = some u ∧ u.current = 0 := by
  have h : iterAdvance (List.replicate 255 (0 : ℚ)) cp255 = none := by
    apply iterAdvance_wraps
    · rw [show cp255.checkpoints = List.replicate 255 (⟨0, 0, 0⟩ : Checkpoint) from rfl,
        List.length_replicate]
    · decide
    · decide
    · rw [List.length_replicate]; decide
  refine ⟨h, ?_⟩
  rintro ⟨u, hu, _⟩
  rw [h] at hu
  exact Option.noConfusion hu

/-- C1 (amended): the tick handler is a no-op returning no score message
when current = 0; otherwise, on a successful Check() of the checkpoint at
position current - 1, it increments current (for current at most 254),
resets current to 0 when it exceeds the checkpoint count, and otherwise
calls Start() on the newly active checkpoint; and for every checkpoint
sequence with N stages, 1 <= N <= 254 (current is a uint8_t which wraps
at N = 255, see the counterexample), after N successful Check()
progressions the index is back at 0 and a new StartTask() succeeds. -/
theorem c1_sequencing :
    (∀ (s : CompState) (r : Bool) (now : ℚ), s.current = 0 →
        CompetitionPlugin.OnUpdate s r now = some (s, none)) ∧
    (∀ (s : CompState) (now : ℚ), 1 ≤ s.current → s.current < s.checkpoints.length →
        s.current ≤ 254 →
        ∃ t, advanceSucc s now = some t ∧ t.current = s.current + 1 ∧
          t.checkpoints = modifyAt s.checkpoints s.current (fun c => Checkpoint.Start c now)) ∧
    (∀ (s : CompState) (now : ℚ), 1 ≤ s.current → s.current = s.checkpoints.length →
        s.current ≤ 254 →
        ∃ t, advanceSucc s now = some t ∧ t.current = 0 ∧ t.checkpoints = s.checkpoints) ∧
    (∀ (s : CompState) (now0 now1 : ℚ) (times : List ℚ),
        1 ≤ s.checkpoints.length → s.checkpoints.length ≤ 254 → s.current = 0 →
        times.length = s.checkpoints.length →
        ∃ loc t u, CompetitionPlugin.OnNewTaskRosService s now0 = some (true, loc, t) ∧
          iterAdvance times t = some u ∧ u.current = 0 ∧
          ∃ loc2 v, CompetitionPlugin.OnNewTaskRosService u now1 = some (true, loc2, v)) := by
  refine ⟨onUpdate_idle, ?_, ?_, ?_⟩
  · intro s now h1 h2 h3
    obtain ⟨t, ht, htc, htk, _⟩ := advance_increment s now h1 h2 h3
    exact ⟨t, ht, htc, htk⟩
  · intro s now h1 h2 h3
    obtain ⟨t, ht, htc, htk, _⟩ := advance_reset s now h1 h2 h3
    exact ⟨t, ht, htc, htk⟩
  · intro s now0 now1 times hn1 hn2 h0 hlen
    cases hl : s.checkpoints with
    | nil => rw [hl] at hn1; simp at hn1
    | cons c rest =>
      have hstart := newTask_success s now0 c rest h0 hl
      set t : CompState :=
        { s with current := 1, checkpoints := Checkpoint.Start c now0 :: rest } with htdef
      have htc : t.current = 1 := rfl
      have htlen : t.checkpoints.length = s.checkpoints.length := by
        simp [htdef, hl]
      obtain ⟨u, hu, hu0, huk, _⟩ := iterAdvance_completes times t
        (by omega) (by omega) (by omega) (by omega)
      refine ⟨s.pickUpLocation, t, u, hstart, hu, hu0, ?_⟩
      have hul : 1 ≤ u.checkpoints.length := by omega
      cases hul2 : u.checkpoints with
      | nil => rw [hul2] at hul; simp at hul
      | cons c2 rest2 =>
        exact ⟨u.pickUpLocation, _, newTask_success u now1 c2 rest2 hu0 hul2⟩

/-- C1 witness: a one-stage competition, started, advanced once with a
successful Check(), is back at index 0 and accepts a new task. -/
theorem c1_sequencing_witness :
    ∃ loc t u, CompetitionPlugin.OnNewTaskRosService c1ex 0 = some (true, loc, t) ∧
      iterAdvance [1] t = some u ∧ u.current = 0 ∧
      ∃ loc2 v, CompetitionPlugin.OnNewTaskRosService u 2 = some (true, loc2, v) :=
  c1_sequencing.2.2.2 c1ex 0 2 [1] (by decide) (by decide) rfl (by decide)

/-- C2 counterexample: with an empty checkpoint list and no task running,
OnNewTaskRosService does not fail: the code has no empty-list guard and
performs the unguarded checkpoints[0] access (modelled none) after
setting current = 1. -/
theorem c2_counterexample :
    CompetitionPlugin.OnNewTaskRosService compEmpty 0 = none ∧
    ¬ ∃ loc t, CompetitionPlugin.OnNewTaskRosService compEmpty 0 = some (false, loc, t) := by
  refine ⟨rfl, ?_⟩
  rintro ⟨loc, t, h⟩
  rw [(rfl : CompetitionPlugin.OnNewTaskRosService compEmpty 0 = none)] at h
  exact Option.noConfusion h

/-- C2 (amended): StartTask fails, leaving the whole state (index
included) unchanged, whenever current is nonzero; when current = 0 and
the checkpoint list is nonempty it sets current = 1, calls Start() on the
first checkpoint, and returns the pick-up location.  The code contains no
empty-list failure branch: on an empty list it would index out of bounds
(see the counterexample); in this repository Load() always installs one
checkpoint before the service is advertised. -/
theorem c2_start_task :
    (∀ (s : CompState) (now : ℚ), s.current ≠ 0 →
        CompetitionPlugin.OnNewTaskRosService s now = some (false, "", s)) ∧
    (∀ (s : CompState) (now : ℚ) (c : Checkpoint) (rest : List Checkpoint),
        s.current = 0 → s.checkpoints = c :: rest →
        CompetitionPlugin.OnNewTaskRosService s now =
          some (true, s.pickUpLocation,
            { s with current := 1, checkpoints := Checkpoint.Start c now :: rest })) :=
  ⟨newTask_busy, newTask_success⟩

/-- C2 witness: a concrete successful start on a one-checkpoint state. -/
theorem c2_start_task_witness :
    CompetitionPlugin.OnNewTaskRosService c2s 3 =
      some (true, "front_desk",
        { checkpoints := [⟨1, 3, 0⟩], current := 1, pickUpLocation := "front_desk",
          scoreFreq := 50, lastScorePubTime := 0 }) :=
  c2_start_task.2 c2s 3 ⟨1, 0, 0⟩ [] rfl rfl

/-- C3 counterexample: a checkpoint on which Start() was never called
(startTime still the Time::Zero sentinel 0) with weight 2, queried at sim
time 25, scores (25 - 0) * 2 = 50, not 0: Score() does use the sentinel
start time. -/
theorem c3_counterexample :
    Checkpoint.Score ⟨2, 0, 0⟩ 25 = 50 ∧ Checkpoint.Score ⟨2, 0, 0⟩ 25 ≠ 0 := by
  constructor <;> norm_num [Checkpoint.Score]

/-- C3 (amended): for a checkpoint whose startTime is still unset (the
Time::Zero sentinel 0) and which has not ended, Score() returns
now * weight — the elapsed time since time zero — and the published score
snapshot reports now * weight at that checkpoint's position, not 0. -/
theorem c3_unstarted_score :
    ∀ (w now : ℚ) (rest : List Checkpoint),
      Checkpoint.Score { weight := w, startTime := 0, endTime := 0 } now = now * w ∧
      (publishScores ({ weight := w, startTime := 0, endTime := 0 } :: rest)
          now).checkpoints.head? = some (now * w) := by
  intro w now rest
  constructor
  · simp [Checkpoint.Score]
  · simp [publishScores, Checkpoint.Score]

/-- C4: Score() equals (endTime-or-now - startTime) * weight; with a
non-negative weight it is non-decreasing in the sim time while endTime is
unset, and once endTime is set it is frozen (independent of the query
time).  The concrete scenario: weight 2, started at 10, scores 30 when
queried at 25 while still running, and scores 30 at every time once
endTime = 25 is recorded. -/
theorem c4_score_props :
    (∀ (c : Checkpoint) (now : ℚ),
        Checkpoint.Score c now =
          ((if c.endTime = 0 then now else c.endTime) - c.startTime) * c.weight) ∧
    (∀ (c : Checkpoint) (t1 t2 : ℚ), 0 ≤ c.weight → c.endTime = 0 → t1 ≤ t2 →
        Checkpoint.Score c t1 ≤ Checkpoint.Score c t2) ∧
    (∀ (c : Checkpoint) (t1 t2 : ℚ), c.endTime ≠ 0 →
        Checkpoint.Score c t1 = Checkpoint.Score c t2) ∧
    Checkpoint.Score ⟨2, 10, 0⟩ 25 = 30 ∧
    (∀ t : ℚ, Checkpoint.Score ⟨2, 10, 25⟩ t = 30) := by
  refine ⟨fun c now => rfl, ?_, ?_, by norm_num [Checkpoint.Score],
    fun t => by norm_num [Checkpoint.Score]⟩
  · intro c t1 t2 hw he h12
    simp only [Checkpoint.Score, he, if_pos rfl]
    exact mul_le_mul_of_nonneg_right (sub_le_sub_right h12 _) hw
  · intro c t1 t2 he
    simp [Checkpoint.Score, he]

/-- C4 witness: monotonicity applied to a concrete running checkpoint. -/
theorem c4_score_props_witness :
    (0 : ℚ) ≤ 1 ∧ Checkpoint.Score ⟨1, 0, 0⟩ 1 ≤ Checkpoint.Score ⟨1, 0, 0⟩ 2 :=
  ⟨by norm_num, c4_score_props.2.1 ⟨1, 0, 0⟩ 1 2 (by norm_num) rfl (by norm_num)⟩

/-- C10: whenever current = 0 at tick entry, the handler returns before
the score-publication step: the state is unchanged and no Score message
is emitted, whatever the rate-limit clock says. -/
theorem c10_no_score_when_idle :
    ∀ (s : CompState) (r : Bool) (now : ℚ), s.current = 0 →
      CompetitionPlugin.OnUpdate s r now = some (s, none) :=
  onUpdate_idle

/-- C10 witness: an idle competition whose rate-limit interval has long
elapsed still publishes nothing. -/
theorem c10_no_score_when_idle_witness :
    ¬ (100 - c10s.lastScorePubTime < 1 / c10s.scoreFreq) ∧
    CompetitionPlugin.OnUpdate c10s true 100 = some (c10s, none) :=
  ⟨by norm_num [c10s], c10_no_score_when_idle c10s true 100 rfl⟩

/-
Lemmas about ContainCheckpoint.
-/

theorem check_fst (s : ContainCheckpoint) :
    (ContainCheckpoint.Check s).1 = s.containDone := by
  unfold ContainCheckpoint.Check
  cases h1 : s.enabled <;> cases h2 : s.containDone <;> simp [h1, h2]

theorem runEvents_done_inv (tr : List ContainEvent) :
    ∀ s : ContainCheckpoint, s.containDone = true → s.subscribed = false →
      (runEvents s tr).containDone = true ∧ (runEvents s tr).subscribed = false ∧
      (runEvents s tr).subscribeCount = s.subscribeCount ∧
      (runEvents s tr).enableRequestCount = s.enableRequestCount := by
  induction tr with
  | nil => intro s h1 h2; exact ⟨h1, h2, rfl, rfl⟩
  | cons e rest ih =>
    intro s h1 h2
    have hstep : (stepEvent s e).containDone = true ∧ (stepEvent s e).subscribed = false ∧
        (stepEvent s e).subscribeCount = s.subscribeCount ∧
        (stepEvent s e).enableRequestCount = s.enableRequestCount := by
      cases e with
      | tick =>
        cases hs : s.enabled <;>
          simp [stepEvent, ContainCheckpoint.Check, h1, h2, hs]
      | containMsg b => simp [stepEvent, h1, h2]
      | reqAck r =>
        cases r <;> simp [stepEvent, ContainCheckpoint.EnableCallback, h1, h2]
    obtain ⟨a, b, c, d⟩ := hstep
    obtain ⟨a2, b2, c2, d2⟩ := ih (stepEvent s e) a b
    exact ⟨a2, b2, c2.trans c, d2.trans d⟩

theorem runEvents_done_requires_msg (tr : List ContainEvent) :
    ∀ s : ContainCheckpoint, s.containDone = false →
      (runEvents s tr).containDone = true → ContainEvent.containMsg true ∈ tr := by
  induction tr with
  | nil =>
    intro s h1 h2
    simp only [runEvents] at h2
    rw [h1] at h2
    exact Bool.noConfusion h2
  | cons e rest ih =>
    intro s h1 h2
    simp only [runEvents] at h2
    by_cases hd : (stepEvent s e).containDone = true
    · cases e with
      | tick =>
        have hpres : (stepEvent s ContainEvent.tick).containDone = s.containDone := by
          cases hs1 : s.enabled <;> cases hs2 : s.containDone <;>
            simp [stepEvent, ContainCheckpoint.Check, hs1, hs2]
        rw [hpres, h1] at hd
        exact Bool.noConfusion hd
      | containMsg b =>
        cases b with
        | true => exact List.mem_cons_self _ _
        | false =>
          have hfalse : (stepEvent s (ContainEvent.containMsg false)).containDone = false := by
            cases hs : s.subscribed <;>
              simp [stepEvent, ContainCheckpoint.OnContain, hs, h1]
          rw [hfalse] at hd
          exact Bool.noConfusion hd
      | reqAck r =>
        have hpres : (stepEvent s (ContainEvent.reqAck r)).containDone = s.containDone := by
          cases r <;> simp [stepEvent, ContainCheckpoint.EnableCallback]
        rw [hpres, h1] at hd
        exact Bool.noConfusion hd
    · have hstill : (stepEvent s e).containDone = false := by
        cases hval : (stepEvent s e).containDone with
        | true => exact absurd hval hd
        | false => rfl
      exact List.mem_cons_of_mem _ (ih (stepEvent s e) hstill h2)

/-- C5 counterexample: the contains signal can latch true before the
enable ack arrives (the code subscribes before it is enabled).  In the
trace tick, contains(true), the next Check() returns true (first
detection) while enabled is still false, so no cleanup runs; a later
contains(false) message un-latches the flag, the following Check()
returns false again, and the one after that re-subscribes (subscribe
count reaches 2): Check() is not idempotent after returning true. -/
theorem c5_counterexample :
    (ContainCheckpoint.Check (runEvents containInit
        [ContainEvent.tick, ContainEvent.containMsg true])).1 = true ∧
    (ContainCheckpoint.Check (runEvents containInit
        [ContainEvent.tick, ContainEvent.containMsg true, ContainEvent.tick,
         ContainEvent.containMsg false])).1 = false ∧
    (ContainCheckpoint.Check (runEvents containInit
        [ContainEvent.tick, ContainEvent.containMsg true, ContainEvent.tick,
         ContainEvent.containMsg false])).2.subscribeCount = 2 ∧
    (runEvents containInit
        [ContainEvent.tick, ContainEvent.containMsg true, ContainEvent.tick,
         ContainEvent.containMsg false]).subscribeCount = 1 := by
  refine ⟨?_, ?_, ?_, ?_⟩ <;> decide

/-- C5 (amended): Check() returns exactly the latched containDone flag,
and from any state with the flag clear it can only return true after a
contains(true) message has been received (only-after holds
unconditionally).  When Check() returns true while the checkpoint is
enabled -- the normal path, where the same tick unsubscribes and requests
disable -- every subsequent call keeps returning true and neither the
contain subscription nor the enable request is ever re-triggered,
whatever events follow.  (Without the enabled condition idempotence
fails, see the counterexample.) -/
theorem c5_contain_check :
    (∀ s : ContainCheckpoint, (ContainCheckpoint.Check s).1 = s.containDone) ∧
    (∀ (s : ContainCheckpoint) (tr : List ContainEvent), s.containDone = false →
        (runEvents s tr).containDone = true → ContainEvent.containMsg true ∈ tr) ∧
    (∀ (s : ContainCheckpoint) (tr : List ContainEvent), s.enabled = true →
        (ContainCheckpoint.Check s).1 = true →
        (ContainCheckpoint.Check (runEvents (ContainCheckpoint.Check s).2 tr)).1 = true ∧
        (runEvents (ContainCheckpoint.Check s).2 tr).subscribeCount =
          (ContainCheckpoint.Check s).2.subscribeCount ∧
        (runEvents (ContainCheckpoint.Check s).2 tr).enableRequestCount =
          (ContainCheckpoint.Check s).2.enableRequestCount) := by
  refine ⟨check_fst, fun s tr h1 h2 => runEvents_done_requires_msg tr s h1 h2, ?_⟩
  intro s tr he hc
  have hdone : s.containDone = true := by rw [← check_fst s]; exact hc
  have hs2 : (ContainCheckpoint.Check s).2.containDone = true ∧
      (ContainCheckpoint.Check s).2.subscribed = false := by
    simp [ContainCheckpoint.Check, he, hdone]
  obtain ⟨h1, h2, h3, h4⟩ :=
    runEvents_done_inv tr (ContainCheckpoint.Check s).2 hs2.1 hs2.2
  exact ⟨by rw [check_fst]; exact h1, h3, h4⟩

/-- C5 witness: on the normal path (enable ack before the contains
signal) the checkpoint is enabled when Check() first returns true, and
after that tick even a stray contains(false) message and another tick
leave Check() returning true with no new subscription. -/
theorem c5_contain_check_witness :
    c5w.enabled = true ∧ (ContainCheckpoint.Check c5w).1 = true ∧
    (ContainCheckpoint.Check (runEvents (ContainCheckpoint.Check c5w).2
        [ContainEvent.containMsg false, ContainEvent.tick])).1 = true ∧
    (runEvents (ContainCheckpoint.Check c5w).2
        [ContainEvent.containMsg false, ContainEvent.tick]).subscribeCount =
      (ContainCheckpoint.Check c5w).2.subscribeCount :=
  ⟨by decide, by decide,
   (c5_contain_check.2.2 c5w [ContainEvent.containMsg false, ContainEvent.tick]
      (by decide) (by decide)).1,
   (c5_contain_check.2.2 c5w [ContainEvent.containMsg false, ContainEvent.tick]
      (by decide) (by decide)).2.1⟩

/-
Lemmas about the follow plugin.
-/

theorem lengthGT_false_iff (v : Vec3) (c : ℚ) :
    lengthGT v c = false ↔ 0 ≤ c ∧ v.normSq ≤ c * c := by
  simp [lengthGT, not_lt, not_or]

/-- C6: the pickup request succeeds iff the guest name matches the
actor's name, the robot name resolves to a world model, and the planar
(Z-zeroed) distance between actor and robot is at most pickUpRadius
(stated on squared data: the radius is non-negative and the squared
planar offset is at most its square); the response success field always
equals the handler result, including on the early-returning failure
branches; on failure the whole state (the follow target included) is
unchanged; on success the target is set to the resolved model. -/
theorem c6_pickup :
    ∀ (s : FollowState) (w : World) (guestName robotName : String),
      ((FollowActorPlugin.OnPickUpRosRequest s w guestName robotName).1 = true ↔
        (guestName = s.actorName ∧
         ∃ m, w.modelByName robotName = some m ∧ 0 ≤ s.pickUpRadius ∧
           (Vec3.withZ (s.actorPos.sub m.pos) 0).normSq ≤
             s.pickUpRadius * s.pickUpRadius)) ∧
      ((FollowActorPlugin.OnPickUpRosRequest s w guestName robotName).2.1.success =
        (FollowActorPlugin.OnPickUpRosRequest s w guestName robotName).1) ∧
      ((FollowActorPlugin.OnPickUpRosRequest s w guestName robotName).1 = false →
        (FollowActorPlugin.OnPickUpRosRequest s w guestName robotName).2.2 = s) ∧
      ((FollowActorPlugin.OnPickUpRosRequest s w guestName robotName).1 = true →
        (FollowActorPlugin.OnPickUpRosRequest s w guestName robotName).2.2 =
          { s with target := some robotName }) := by
  intro s w g r
  unfold FollowActorPlugin.OnPickUpRosRequest
  by_cases hg : g ≠ s.actorName
  · rw [if_pos hg]
    exact ⟨by simp [hg], rfl, fun _ => rfl, fun h => Bool.noConfusion h⟩
  · rw [if_neg hg]
    push_neg at hg
    cases hm : w.modelByName r with
    | none =>
      refine ⟨?_, rfl, fun _ => rfl, fun h => Bool.noConfusion h⟩
      simp
    | some m =>
      dsimp only
      by_cases hr : lengthGT (Vec3.withZ (s.actorPos.sub m.pos) 0) s.pickUpRadius = true
      · rw [if_pos hr]
        refine ⟨?_, rfl, fun _ => rfl, fun h => Bool.noConfusion h⟩
        constructor
        · intro h; exact Bool.noConfusion h
        · rintro ⟨-, m2, hm2, hrad, hle⟩
          injection hm2 with hm2
          subst hm2
          have hfal := (lengthGT_false_iff _ _).2 ⟨hrad, hle⟩
          rw [hfal] at hr
          exact Bool.noConfusion hr
      · rw [if_neg hr]
        have hr' : lengthGT (Vec3.withZ (s.actorPos.sub m.pos) 0) s.pickUpRadius = false := by
          cases hval : lengthGT (Vec3.withZ (s.actorPos.sub m.pos) 0) s.pickUpRadius with
          | true => exact absurd hval hr
          | false => rfl
        obtain ⟨hrad, hle⟩ := (lengthGT_false_iff _ _).1 hr'
        refine ⟨?_, rfl, fun h => Bool.noConfusion h, fun _ => rfl⟩
        constructor
        · intro _; exact ⟨hg, m, rfl, hrad, hle⟩
        · intro _; rfl

theorem followNone (s : FollowState) (w : World) (targetPos : Vec3)
    (simTime len lenMove : ℚ) (h : s.target = none) :
    FollowActorPlugin.OnUpdate s w targetPos simTime len lenMove =
      { s with lastUpdate := simTime } := by
  unfold FollowActorPlugin.OnUpdate
  dsimp only
  rw [h]

theorem followRun_none (tr : List FollowTickInput) :
    ∀ s : FollowState, s.target = none →
      (followRun s tr).target = none ∧ (followRun s tr).actorPos = s.actorPos ∧
      (followRun s tr).actorRot = s.actorRot := by
  induction tr with
  | nil => intro s h; exact ⟨h, rfl, rfl⟩
  | cons i rest ih =>
    intro s h
    have hstep := followNone s i.w i.targetPos i.simTime i.len i.lenMove h
    have : followRun s (i :: rest) =
        followRun { s with lastUpdate := i.simTime } rest := by
      simp only [followRun, hstep]
    rw [this]
    exact ih { s with lastUpdate := i.simTime } h

theorem pickup_cases (s : FollowState) (w : World) (g r : String) :
    FollowActorPlugin.OnPickUpRosRequest s w g r = (false, ⟨false⟩, s) ∨
    FollowActorPlugin.OnPickUpRosRequest s w g r =
      (true, ⟨true⟩, { s with target := some r }) := by
  unfold FollowActorPlugin.OnPickUpRosRequest
  by_cases hg : g ≠ s.actorName
  · rw [if_pos hg]; exact Or.inl rfl
  · rw [if_neg hg]
    cases hm : w.modelByName r with
    | none => exact Or.inl rfl
    | some m =>
      dsimp only
      by_cases hr : lengthGT (Vec3.withZ (s.actorPos.sub m.pos) 0) s.pickUpRadius = true
      · rw [if_pos hr]; exact Or.inl rfl
      · rw [if_neg hr]; exact Or.inr rfl

theorem pickup_success_target (s : FollowState) (w : World) (g r : String)
    (h : (FollowActorPlugin.OnPickUpRosRequest s w g r).1 = true) :
    (FollowActorPlugin.OnPickUpRosRequest s w g r).2.2.target = some r := by
  rcases pickup_cases s w g r with hc | hc
  · rw [hc] at h; exact Bool.noConfusion h
  · rw [hc]

/-- C6 witness: a concrete in-range pickup succeeds and sets the target. -/
theorem c6_pickup_witness :
    (FollowActorPlugin.OnPickUpRosRequest c6s (robotWorldAt ⟨1, 0, 1⟩) "guest" "robot").1
      = true ∧
    (FollowActorPlugin.OnPickUpRosRequest c6s (robotWorldAt ⟨1, 0, 1⟩) "guest" "robot").2.2
      = { c6s with target := some "robot" } :=
  have h := c6_pickup c6s (robotWorldAt ⟨1, 0, 1⟩) "guest" "robot"
  have hsucc : (FollowActorPlugin.OnPickUpRosRequest c6s (robotWorldAt ⟨1, 0, 1⟩)
      "guest" "robot").1 = true :=
    h.1.2 ⟨rfl, ⟨"robot", ⟨1, 0, 1⟩, ⟨0, 0, 0⟩, ⟨0, 0, 0⟩⟩, rfl, by norm_num [c6s],
      by norm_num [c6s, Vec3.withZ, Vec3.sub, Vec3.normSq]⟩
  ⟨hsucc, h.2.2.2 hsucc⟩

/-- C7 counterexample: the target is at distance 5 > maxDistance = 4, but
an obstacle is on the way, so OnUpdate returns before the distance tests:
the target is not cleared.  Disengagement is not unconditional on the
distance alone. -/
theorem c7_counterexample :
    lengthGT (Vec3.sub ⟨5, 0, 1⟩ c7s.actorPos) c7s.maxDistance = true ∧
    FollowActorPlugin.ObstacleOnTheWay c7s.actorPos c7s.ignoreModels c7s.obstacleMargin
      wallWorld = true ∧
    (FollowActorPlugin.OnUpdate c7s wallWorld ⟨5, 0, 1⟩ 1 5 0).target = some "robot" := by
  refine ⟨?_, ?_, ?_⟩
  · norm_num [lengthGT, Vec3.sub, Vec3.normSq, c7s]
  · norm_num [FollowActorPlugin.ObstacleOnTheWay, wallWorld, boxContains, c7s]
    decide
  · norm_num [FollowActorPlugin.OnUpdate, FollowActorPlugin.ObstacleOnTheWay, wallWorld,
      boxContains, c7s]
    rw [if_neg (by decide)]

/-- C7 (amended): if at some tick a target is set, no obstacle is on the
way, and the (3-D) distance to the target exceeds both maxDistance and
minDistance (as it always does when minDistance <= maxDistance, e.g. the
default configuration), then after that tick's Advance the target is null
and the actor's position and orientation are unmoved; the target then
remains null, with the actor unmoved, for every later tick until a
subsequent successful pickup request sets a new one (a successful pickup
always sets the target to the requested robot).  The length argument len
is pinned to the exact distance by len * len = normSq dir, 0 <= len. -/
theorem c7_disengage :
    ∀ (s : FollowState) (w : World) (tname : String) (targetPos : Vec3)
      (simTime len lenMove : ℚ),
      s.target = some tname →
      FollowActorPlugin.ObstacleOnTheWay s.actorPos s.ignoreModels s.obstacleMargin w
        = false →
      len * len = (targetPos.sub s.actorPos).normSq → 0 ≤ len →
      s.minDistance < len → s.maxDistance < len →
      (FollowActorPlugin.OnUpdate s w targetPos simTime len lenMove).target = none ∧
      (FollowActorPlugin.OnUpdate s w targetPos simTime len lenMove).actorPos
        = s.actorPos ∧
      (FollowActorPlugin.OnUpdate s w targetPos simTime len lenMove).actorRot
        = s.actorRot ∧
      (∀ tr, (followRun (FollowActorPlugin.OnUpdate s w targetPos simTime len lenMove)
          tr).target = none) ∧
      (∀ (t2 : FollowState) (w2 : World) (g r : String),
        (FollowActorPlugin.OnPickUpRosRequest t2 w2 g r).1 = true →
        (FollowActorPlugin.OnPickUpRosRequest t2 w2 g r).2.2.target = some r) := by
  intro s w tname targetPos simTime len lenMove htgt hobs hlen hlen0 hmin hmax
  have heq : FollowActorPlugin.OnUpdate s w targetPos simTime len lenMove =
      { s with lastUpdate := simTime, target := none } := by
    unfold FollowActorPlugin.OnUpdate
    dsimp only
    rw [htgt]
    dsimp only
    rw [if_neg (by simp [hobs]), if_neg (not_le.mpr hmin), if_pos hmax]
  refine ⟨by rw [heq], by rw [heq], by rw [heq], ?_, pickup_success_target⟩
  intro tr
  exact (followRun_none tr _ (by rw [heq])).1

/-- C7 witness: the claim's concrete scenario with no obstacle — actor at
(0,0,1), target at (5,0,1), distance 5 > maxDistance 4 ⇒ target cleared,
actor unmoved, and a later tick keeps the target null. -/
theorem c7_disengage_witness :
    (FollowActorPlugin.OnUpdate c7free emptyWorld ⟨5, 0, 1⟩ 1 5 0).target = none ∧
    (FollowActorPlugin.OnUpdate c7free emptyWorld ⟨5, 0, 1⟩ 1 5 0).actorPos = ⟨0, 0, 1⟩ ∧
    (followRun (FollowActorPlugin.OnUpdate c7free emptyWorld ⟨5, 0, 1⟩ 1 5 0)
        [⟨emptyWorld, ⟨9, 9, 9⟩, 2, 1, 0⟩]).target = none :=
  have h := c7_disengage c7free emptyWorld "robot" ⟨5, 0, 1⟩ 1 5 0 rfl rfl
    (by norm_num [Vec3.sub, Vec3.normSq, c7free]) (by norm_num)
    (by norm_num [c7free]) (by norm_num [c7free])
  ⟨h.1, h.2.1.trans rfl, h.2.2.2.1 [⟨emptyWorld, ⟨9, 9, 9⟩, 2, 1, 0⟩]⟩

/-- C8: when a target is set, no obstacle blocks the path, and the
distance to the target is strictly greater than minDistance and at most
maxDistance, Advance moves the actor position by
direction_normalized * velocity * dt (dt = simTime - lastUpdate), resets
the vertical coordinate to its previous value (no vertical motion), and
writes the orientation determined by atan2 of the direction plus the
fixed 90-degree offset, angle-normalized (kept symbolic as the atan2
argument pair); the target stays set.  The length argument len is pinned
to the exact distance by len * len = normSq dir, 0 <= len. -/
theorem c8_motion :
    ∀ (s : FollowState) (w : World) (tname : String) (targetPos : Vec3)
      (simTime len lenMove : ℚ),
      s.target = some tname →
      FollowActorPlugin.ObstacleOnTheWay s.actorPos s.ignoreModels s.obstacleMargin w
        = false →
      len * len = (targetPos.sub s.actorPos).normSq → 0 ≤ len →
      s.minDistance < len → len ≤ s.maxDistance →
      (FollowActorPlugin.OnUpdate s w targetPos simTime len lenMove).actorPos =
        Vec3.withZ (s.actorPos.add (((targetPos.sub s.actorPos).scale (1 / len)).scale
          (s.velocity * (simTime - s.lastUpdate)))) s.actorPos.z ∧
      (FollowActorPlugin.OnUpdate s w targetPos simTime len lenMove).actorPos.z
        = s.actorPos.z ∧
      (FollowActorPlugin.OnUpdate s w targetPos simTime len lenMove).actorRot =
        some ⟨(targetPos.sub s.actorPos).y, (targetPos.sub s.actorPos).x⟩ ∧
      (FollowActorPlugin.OnUpdate s w targetPos simTime len lenMove).target
        = some tname := by
  intro s w tname targetPos simTime len lenMove htgt hobs hlen hlen0 hmin hmax
  have heq : FollowActorPlugin.OnUpdate s w targetPos simTime len lenMove =
      { s with
          lastUpdate := simTime,
          actorPos := Vec3.withZ (s.actorPos.add (((targetPos.sub s.actorPos).scale
            (1 / len)).scale (s.velocity * (simTime - s.lastUpdate)))) s.actorPos.z,
          actorRot := some ⟨(targetPos.sub s.actorPos).y, (targetPos.sub s.actorPos).x⟩,
          scriptTime := s.scriptTime + lenMove * s.animationFactor } := by
    unfold FollowActorPlugin.OnUpdate
    dsimp only
    rw [htgt]
    dsimp only
    rw [if_neg (by simp [hobs]), if_neg (not_le.mpr hmin), if_neg (not_lt.mpr hmax)]
  refine ⟨by rw [heq], by rw [heq]; rfl, by rw [heq], ?_⟩
  rw [heq]
  exact htgt

/-- C8 witness: the claim's concrete scenario — actor at (0,0,1), target
at (2,0,1), velocity 0.8, dt 1, minDistance 1.2: distance 2 is within
bounds, the actor moves 0.8 m along +X, the vertical coordinate stays 1,
and the recorded heading is the atan2 pair (0, 2). -/
theorem c8_motion_witness :
    (FollowActorPlugin.OnUpdate c8s emptyWorld ⟨2, 0, 1⟩ 1 2 (4 / 5)).actorPos
      = ⟨4 / 5, 0, 1⟩ ∧
    (FollowActorPlugin.OnUpdate c8s emptyWorld ⟨2, 0, 1⟩ 1 2 (4 / 5)).actorPos.z = 1 ∧
    (FollowActorPlugin.OnUpdate c8s emptyWorld ⟨2, 0, 1⟩ 1 2 (4 / 5)).actorRot
      = some ⟨0, 2⟩ :=
  have h := c8_motion c8s emptyWorld "robot" ⟨2, 0, 1⟩ 1 2 (4 / 5) rfl rfl
    (by norm_num [Vec3.sub, Vec3.normSq, c8s]) (by norm_num)
    (by norm_num [c8s]) (by norm_num [c8s])
  ⟨h.1.trans (by norm_num [c8s, Vec3.sub, Vec3.add, Vec3.scale, Vec3.withZ]),
   h.2.1.trans rfl,
   h.2.2.1.trans (by norm_num [c8s, Vec3.sub])⟩

/-- C9: the pickup radius test zeroes the vertical component first, so
for any two placements of the robot with the same horizontal coordinates
(any vertical offset), the pickup request's outcome is identical; the
follow distance tests, by contrast, use the full 3-D length, so two
placements with the same horizontal offset can make Advance keep
following (distance 3 within bounds) or disengage (distance 5 over
maxDistance): pickup eligibility is planar while follow
engagement/disengagement is 3-D. -/
theorem c9_planar_vs_3d :
    (∀ (s : FollowState) (g r : String) (w1 w2 : World) (m1 m2 : WModel),
        w1.modelByName r = some m1 → w2.modelByName r = some m2 →
        m1.pos.x = m2.pos.x → m1.pos.y = m2.pos.y →
        (FollowActorPlugin.OnPickUpRosRequest s w1 g r).1 =
          (FollowActorPlugin.OnPickUpRosRequest s w2 g r).1 ∧
        (FollowActorPlugin.OnPickUpRosRequest s w1 g r).2.1.success =
          (FollowActorPlugin.OnPickUpRosRequest s w2 g r).2.1.success) ∧
    ((FollowActorPlugin.OnUpdate c9s emptyWorld ⟨3, 0, 0⟩ 1 3 (4 / 5)).target
        = some "robot" ∧
     (FollowActorPlugin.OnUpdate c9s emptyWorld ⟨3, 0, 4⟩ 1 5 0).target = none ∧
     (FollowActorPlugin.OnPickUpRosRequest c9s (robotWorldAt ⟨3, 0, 0⟩) "guest"
         "robot").1 =
       (FollowActorPlugin.OnPickUpRosRequest c9s (robotWorldAt ⟨3, 0, 4⟩) "guest"
         "robot").1) := by
  constructor
  · intro s g r w1 w2 m1 m2 hm1 hm2 hx hy
    unfold FollowActorPlugin.OnPickUpRosRequest
    by_cases hg : g ≠ s.actorName
    · rw [if_pos hg, if_pos hg]; exact ⟨rfl, rfl⟩
    · rw [if_neg hg, if_neg hg, hm1, hm2]
      dsimp only
      have harg : Vec3.withZ (s.actorPos.sub m1.pos) 0 =
          Vec3.withZ (s.actorPos.sub m2.pos) 0 := by
        simp [Vec3.withZ, Vec3.sub, hx, hy]
      rw [harg]
      exact ⟨rfl, rfl⟩
  · refine ⟨?_, ?_, ?_⟩
    · norm_num [FollowActorPlugin.OnUpdate, FollowActorPlugin.ObstacleOnTheWay, c9s,
        emptyWorld]
    · norm_num [FollowActorPlugin.OnUpdate, FollowActorPlugin.ObstacleOnTheWay, c9s,
        emptyWorld]
    · norm_num [FollowActorPlugin.OnPickUpRosRequest, World.modelByName, robotWorldAt,
        c9s, lengthGT, Vec3.withZ, Vec3.sub, Vec3.normSq]

/-- C9 witness: the planar-invariance part applied to the two concrete
robot placements (3,0,0) and (3,0,4), which share horizontal
coordinates. -/
theorem c9_planar_vs_3d_witness :
    (FollowActorPlugin.OnPickUpRosRequest c9s (robotWorldAt ⟨3, 0, 0⟩) "guest"
        "robot").1 =
      (FollowActorPlugin.OnPickUpRosRequest c9s (robotWorldAt ⟨3, 0, 4⟩) "guest"
        "robot").1 :=
  (c9_planar_vs_3d.1 c9s "guest" "robot" (robotWorldAt ⟨3, 0, 0⟩) (robotWorldAt ⟨3, 0, 4⟩)
    ⟨"robot", ⟨3, 0, 0⟩, ⟨0, 0, 0⟩, ⟨0, 0, 0⟩⟩ ⟨"robot", ⟨3, 0, 4⟩, ⟨0, 0, 0⟩, ⟨0, 0, 0⟩⟩
    rfl rfl rfl rfl).1
